import Mathlib

/-!
Verification of the zkbitcoin core against its specification.

The development shallowly embeds two Rust source files:

* `src/json_rpc_stuff.rs` - a minimal JSON-RPC 1.0 client for a bitcoind
  node (`RpcCtx`, `json_rpc_request`) and the three pipeline stages built
  on it (`fund_raw_transaction`, `sign_transaction`, `send_raw_transaction`).
* `crates/zkbtc-admin/src/main.rs` - the key-ceremony driver
  (`generate_committee`) and the orchestrator startup check
  (`start_orchestrator`).

External effects (the HTTP exchange, serde parsing of response bodies,
bitcoin consensus encoding, the FROST key-generation capability) are
injected as function parameters, so that every theorem quantifies over
them or fixes a concrete stub, exactly as a test harness would.
All machine integers are modelled as `Nat`; byte values carry explicit
`< 256` bounds where they matter.
-/

/-! ## RPC context (struct `RpcCtx` in `json_rpc_stuff.rs`) -/

/-- Mirror of the Rust struct `RpcCtx`: protocol version tag, optional
wallet name, optional endpoint address and optional credentials. -/
structure RpcCtx where
  version : Option String
  wallet : Option String
  address : Option String
  auth : Option String
deriving Repr, DecidableEq

/-- Mirror of the Rust method `RpcCtx::address`: the configured endpoint,
falling back to the hardcoded development node address when unset. -/
def RpcCtx.addressOrDefault (ctx : RpcCtx) : String :=
  ctx.address.getD "http://127.0.0.1:18331"

/-! ## JSON-RPC request envelope and transport -/

/-- Mirror of the JSON-RPC 1.0 request envelope built inside
`json_rpc_request`: version tag taken from the context, the constant
placeholder id, the method name and the pre-serialized positional
parameters (each one raw JSON text). -/
structure JsonRpcRequest where
  jsonrpc : Option String
  id : String
  method : String
  params : List String
deriving Repr, DecidableEq

/-- Raw JSON text of `serde_json::Value::String` for a string with no
escape-needing characters (the only strings passed as parameters here are
hex encodings). -/
def rawJsonString (s : String) : String :=
  "\"" ++ s ++ "\""

/-- An HTTP response as seen by the client after a completed exchange:
numeric status code and the body text. -/
structure HttpResponse where
  status : Nat
  body : String
deriving Repr, DecidableEq

/-- Injected effect: one HTTP POST of a JSON-RPC request envelope to a URL.
A `.error` models a transport failure (network unreachable, timeout);
an `.ok` models any completed exchange, whatever the status code. -/
def HttpPost : Type :=
  String → JsonRpcRequest → Except String HttpResponse

/-- Request envelope built inside `json_rpc_request`: version tag from the
context, the constant placeholder id `whatevs`, the method and the
positional parameters. -/
def mkRequest (ctx : RpcCtx) (method : String) (params : List String) :
    JsonRpcRequest :=
  { jsonrpc := ctx.version
    id := "whatevs"
    method := method
    params := params }

/-- URL computed inside `json_rpc_request`: the endpoint from the context
(with its hardcoded default), extended with `/wallet/<wallet>` exactly
when a wallet is configured. -/
def requestUrl (ctx : RpcCtx) : String :=
  let endpoint := ctx.addressOrDefault
  match ctx.wallet with
  | some wallet => endpoint ++ "/wallet/" ++ wallet
  | none => endpoint

/-- Mirror of the Rust function `json_rpc_request`: build the envelope,
compute the URL from the context, perform the POST, and return the raw
response body as text without inspecting the HTTP status. Header assembly
and logging are I/O detail outside the model. -/
def json_rpc_request (post : HttpPost) (ctx : RpcCtx) (method : String)
    (params : List String) : Except String String :=
  match post (requestUrl ctx) (mkRequest ctx method params) with
  | .error e => .error e
  | .ok response => .ok response.body

/-! ## Hex encoding (crate `hex`, function `hex::encode`) -/

/-- Lowercase hex digit of a nibble value below 16. -/
def hexDigit (n : Nat) : Char :=
  if n < 10 then Char.ofNat (48 + n) else Char.ofNat (87 + n)

/-- Mirror of `hex::encode` on a byte list: two lowercase hex characters
per byte, most significant nibble first. -/
def hexEncode (bytes : List Nat) : String :=
  String.mk (bytes.flatMap fun b => [hexDigit (b / 16), hexDigit (b % 16)])

/-- Value of a lowercase hex digit character, `none` on any other
character. -/
def hexDigitVal (c : Char) : Option Nat :=
  if 48 ≤ c.toNat ∧ c.toNat ≤ 57 then some (c.toNat - 48)
  else if 97 ≤ c.toNat ∧ c.toNat ≤ 102 then some (c.toNat - 87)
  else none

/-- Decode a lowercase hex character list into bytes, two characters per
byte; fails on odd length or a non-hex character. -/
def hexDecodeAux : List Char → Option (List Nat)
  | [] => some []
  | [_] => none
  | c1 :: c2 :: rest =>
    match hexDigitVal c1, hexDigitVal c2, hexDecodeAux rest with
    | some hi, some lo, some tail => some ((16 * hi + lo) :: tail)
    | _, _, _ => none

/-- Decode a hex string into bytes. -/
def hexDecode (s : String) : Option (List Nat) :=
  hexDecodeAux s.data

theorem hexDigitVal_hexDigit : ∀ n < 16, hexDigitVal (hexDigit n) = some n := by
  decide

/-- Round trip of the hex codec on genuine bytes: decoding the encoding of
a byte list recovers it exactly. -/
theorem hexDecode_hexEncode (bytes : List Nat) (hb : ∀ b ∈ bytes, b < 256) :
    hexDecode (hexEncode bytes) = some bytes := by
  unfold hexDecode hexEncode
  show hexDecodeAux (bytes.flatMap fun b => [hexDigit (b / 16), hexDigit (b % 16)]) = some bytes
  induction bytes with
  | nil => rfl
  | cons b rest ih =>
    have hblt : b < 256 := hb b (by simp)
    have hhi : b / 16 < 16 := by omega
    have hlo : b % 16 < 16 := by omega
    have hrest : ∀ x ∈ rest, x < 256 := fun x hx => hb x (by simp [hx])
    rw [List.flatMap_cons]
    show hexDecodeAux
        (hexDigit (b / 16) :: hexDigit (b % 16) ::
          rest.flatMap fun x => [hexDigit (x / 16), hexDigit (x % 16)]) = _
    simp only [hexDecodeAux, hexDigitVal_hexDigit _ hhi, hexDigitVal_hexDigit _ hlo, ih hrest]
    have : 16 * (b / 16) + b % 16 = b := by omega
    simp [this]

/-! ## Pipeline stage helpers (`json_rpc_stuff.rs`, lower half) -/

/-- Mirror of the Rust enum `TransactionOrHex`: a pipeline stage accepts a
transaction either as a pre-serialized hex string or as a structured
transaction. The structured transaction type is abstract (crate
`bitcoin`), injected as `Tx`. -/
inductive TransactionOrHex (Tx : Type)
  | Hex (hex : String)
  | Transaction (tx : Tx)

/-- Mirror of the normalization shared by all three stages: the match on
`TransactionOrHex` producing `tx_hex`, using the injected consensus hex
serializer (`bitcoin::consensus::encode::serialize_hex`). -/
def txToHex {Tx : Type} (serialize_hex : Tx → String) : TransactionOrHex Tx → String
  | .Hex hex => hex
  | .Transaction tx => serialize_hex tx

/-- Mirror of `bitcoincore_rpc::jsonrpc::error::RpcError`, the JSON-RPC
error object carried in an error envelope. -/
structure RpcError where
  code : Int
  message : String
deriving Repr, DecidableEq

/-- Mirror of the parsed JSON-RPC response envelope
(`bitcoincore_rpc::jsonrpc::Response`), with the typed deserialization of
the raw `result` value folded into the injected body parser: `result` is
the already-typed payload when present and parseable, `error` the error
object when present. -/
structure JsonRpcResponse (ρ : Type) where
  result : Option ρ
  error : Option RpcError
deriving Repr, DecidableEq

/-- Failure cases of `Response::result()` in the jsonrpc crate: an error
envelope yields the contained `RpcError`; a response with neither error
nor usable result yields a non-Rpc failure. -/
inductive JsonRpcFailure
  | rpc (e : RpcError)
  | noErrorOrResult
deriving Repr, DecidableEq

/-- Mirror of `Response::result()`: the error field, when set, wins and is
returned as an `Rpc` failure; otherwise the typed result is extracted. -/
def responseResult {ρ : Type} (r : JsonRpcResponse ρ) : Except JsonRpcFailure ρ :=
  match r.error with
  | some e => .error (.rpc e)
  | none =>
    match r.result with
    | some v => .ok v
    | none => .error .noErrorOrResult

/-- Outcome of running a pipeline stage: a returned value, a returned
error (the `anyhow::Result` error path), or a process abort through a
panicking `unwrap`/`expect`. -/
inductive Outcome (α : Type)
  | ok (a : α)
  | err (msg : String)
  | panicked (msg : String)
deriving Repr, DecidableEq

/-- Panic message of `unwrap` on the failure of `Response::result()`; for
an error envelope it carries the node-provided code and message (the Debug
rendering), but as a process abort, not as a returned error. -/
def unwrapFailureMsg : JsonRpcFailure → String
  | .rpc e =>
    "called unwrap on an Err value: Rpc(RpcError code " ++ toString e.code ++
      " message " ++ e.message ++ ")"
  | .noErrorOrResult => "called unwrap on an Err value: NoErrorOrResult"

/-- Mirror of `bitcoincore_rpc::json::FundRawTransactionResult`: the field
the code reads is `hex`, the consensus-encoded funded transaction bytes. -/
structure FundRawTransactionResult where
  hex : List Nat
deriving Repr, DecidableEq

/-- Mirror of `bitcoincore_rpc::json::SignRawTransactionResult`: the field
the code reads is `hex`, the consensus-encoded signed transaction bytes. -/
structure SignRawTransactionResult where
  hex : List Nat
  complete : Bool
deriving Repr, DecidableEq

/-- Mirror of the Rust function `fund_raw_transaction`: normalize the
input to hex, call the `fundrawtransaction` RPC, and process the raw body:
serde-parse the envelope (injected `parseEnv`; `unwrap` panics on
failure), extract the typed result (`unwrap` panics on an error envelope),
consensus-decode the returned bytes (injected `consensus_decode`; `unwrap`
panics on failure), and return the hex encoding of those bytes together
with the decoded transaction. A transport failure is returned as an
`anyhow` error with the `fundrawtransaction error` context. -/
def fund_raw_transaction {Tx : Type} (post : HttpPost)
    (parseEnv : String → Option (JsonRpcResponse FundRawTransactionResult))
    (serialize_hex : Tx → String) (consensus_decode : List Nat → Option Tx)
    (ctx : RpcCtx) (tx : TransactionOrHex Tx) : Outcome (String × Tx) :=
  match json_rpc_request post ctx "fundrawtransaction"
      [rawJsonString (txToHex serialize_hex tx)] with
  | .error e => .err ("fundrawtransaction error: " ++ e)
  | .ok response =>
    match parseEnv response with
    | none => .panicked "called unwrap on a serde envelope parse failure"
    | some env =>
      match responseResult env with
      | .error f => .panicked (unwrapFailureMsg f)
      | .ok parsed =>
        match consensus_decode parsed.hex with
        | none => .panicked "called unwrap on a consensus decode failure"
        | some t => .ok (hexEncode parsed.hex, t)

/-- Mirror of the Rust function `sign_transaction`: same shape as
`fund_raw_transaction` with the `signrawtransactionwithwallet` RPC and its
result type. -/
def sign_transaction {Tx : Type} (post : HttpPost)
    (parseEnv : String → Option (JsonRpcResponse SignRawTransactionResult))
    (serialize_hex : Tx → String) (consensus_decode : List Nat → Option Tx)
    (ctx : RpcCtx) (tx : TransactionOrHex Tx) : Outcome (String × Tx) :=
  match json_rpc_request post ctx "signrawtransactionwithwallet"
      [rawJsonString (txToHex serialize_hex tx)] with
  | .error e => .err ("signrawtransactionwithwallet error: " ++ e)
  | .ok response =>
    match parseEnv response with
    | none => .panicked "called unwrap on a serde envelope parse failure"
    | some env =>
      match responseResult env with
      | .error f => .panicked (unwrapFailureMsg f)
      | .ok parsed =>
        match consensus_decode parsed.hex with
        | none => .panicked "called unwrap on a consensus decode failure"
        | some t => .ok (hexEncode parsed.hex, t)

/-- Mirror of the Rust function `send_raw_transaction`: normalize the
input to hex, call the `sendrawtransaction` RPC, and extract the returned
transaction id (a `Txid`, modelled as its string form) from the envelope,
panicking on a parse failure or an error envelope. -/
def send_raw_transaction {Tx : Type} (post : HttpPost)
    (parseEnv : String → Option (JsonRpcResponse String))
    (serialize_hex : Tx → String)
    (ctx : RpcCtx) (tx : TransactionOrHex Tx) : Outcome String :=
  match json_rpc_request post ctx "sendrawtransaction"
      [rawJsonString (txToHex serialize_hex tx)] with
  | .error e => .err ("sendrawtransaction error: " ++ e)
  | .ok response =>
    match parseEnv response with
    | none => .panicked "called unwrap on a serde envelope parse failure"
    | some env =>
      match responseResult env with
      | .error f => .panicked (unwrapFailureMsg f)
      | .ok txid => .ok txid

/-! ## Key ceremony (`crates/zkbtc-admin/src/main.rs`) -/

/-- Opaque secret key package of one committee member (frost `KeyPackage`);
its content is never inspected by the admin code, only serialized whole. -/
structure KeyPackage where
  identifier : Nat
  share : Nat
deriving Repr, DecidableEq

/-- Mirror of the frost `PublicKeyPackage` as used by the admin code: the
only observation made is `verifying_key().serialize()`, so the package is
modelled by those serialized bytes (33-byte compressed point; the leading
byte is the parity marker). -/
structure PublicKeyPackage where
  verifyingKeySer : List Nat
deriving Repr, DecidableEq

/-- Result of one invocation of the external key-generation capability
`frost::gen_frost_keys(num, threshold)`: the member-id-keyed map of secret
key packages (a BTreeMap, modelled as its sorted association list) and the
public key package. -/
def KeyGenResult : Type :=
  List (Nat × KeyPackage) × PublicKeyPackage

/-- Parity test performed by the rejection-sampling loop:
`pubkey.serialize()[0] == 2`, the even-y marker of a compressed point. -/
def parityOk (pk : PublicKeyPackage) : Bool :=
  pk.verifyingKeySer.headD 0 == 2

/-- Mirror of the rejection-sampling loop in `generate_committee`: attempt
`i` draws `gen i` (fresh randomness each attempt, the full capability
re-run from scratch); the loop exits with the first result whose public
key has the even-y leading byte. The Rust loop is unbounded; `fuel` counts
how many attempts the model is allowed to observe, and `none` means the
loop has not terminated within that many attempts. -/
def genLoopFrom (gen : Nat → KeyGenResult) (i : Nat) : Nat → Option KeyGenResult
  | 0 => none
  | fuel + 1 =>
    let r := gen i
    if parityOk r.2 then some r else genLoopFrom gen (i + 1) fuel

/-- Entry point of the loop: the code first deals once, then re-deals until
the parity invariant holds, so attempts are observed from index 0. -/
def ceremonyKeys (gen : Nat → KeyGenResult) (fuel : Nat) : Option KeyGenResult :=
  genLoopFrom gen 0 fuel

/-- Mirror of the struct `Member` of the committee orchestrator: the
network address of one member. -/
structure Member where
  address : String
deriving Repr, DecidableEq

/-- Mirror of the struct `CommitteeConfig`: signing threshold and the
member-id-to-member mapping (a HashMap, modelled as the association list
the code collects; member ids are BTreeMap keys, hence distinct). -/
structure CommitteeConfig where
  threshold : Nat
  members : List (Nat × Member)
deriving Repr, DecidableEq

/-- Artifacts emitted by a completed ceremony: the per-member secret key
package files (filename and content, in emission order), the single
public-key-package file content, and the single committee config. -/
structure CeremonyOutput where
  keyFiles : List (String × KeyPackage)
  pubkeyPackage : PublicKeyPackage
  committeeConfig : CommitteeConfig
deriving Repr, DecidableEq

/-- Mirror of the artifact-emission half of `generate_committee`, applied
to the key-generation result that survived the parity loop: one
`key-<ordinal>.json` file per entry of `key_packages.values().enumerate()`,
the public key package, and the committee config built from
`key_packages.iter().enumerate()` with placeholder address
`http://127.0.0.1:889` concatenated with the decimal ordinal. -/
def emitArtifacts (threshold : Nat) (r : KeyGenResult) : CeremonyOutput :=
  { keyFiles :=
      (r.1.map Prod.snd).enum.map fun p =>
        ("key-" ++ toString p.1 ++ ".json", p.2)
    pubkeyPackage := r.2
    committeeConfig :=
      { threshold := threshold
        members :=
          r.1.enum.map fun p =>
            (p.2.1, { address := "http://127.0.0.1:889" ++ toString p.1 }) } }

/-- Mirror of the Rust function `generate_committee` for a given
key-generation capability `gen` (the stream of attempts of
`frost::gen_frost_keys(num, threshold)`): run the parity
rejection-sampling loop, then emit the artifacts. `none` means the loop
has not terminated within `fuel` attempts. -/
def generate_committee (gen : Nat → KeyGenResult) (threshold : Nat)
    (fuel : Nat) : Option CeremonyOutput :=
  (ceremonyKeys gen fuel).map (emitArtifacts threshold)

/-! ## Orchestrator startup (`start_orchestrator` in `main.rs`) -/

/-- Outcome of orchestrator startup after the artifacts have been loaded:
either the long-running coordination service is started with the loaded
data, or the process aborts (the failed `assert!`). -/
inductive OrchestratorOutcome
  | serving (pk : PublicKeyPackage) (cfg : CommitteeConfig)
  | panicked (msg : String)
deriving Repr, DecidableEq

/-- Mirror of the Rust function `start_orchestrator` after loading: the
sanity check `assert!(committee_cfg.threshold > 0)` runs before
`run_server`; a zero threshold aborts the process, otherwise the service
starts with the loaded packages. -/
def start_orchestrator (pk : PublicKeyPackage) (cfg : CommitteeConfig) :
    OrchestratorOutcome :=
  if cfg.threshold > 0 then
    .serving pk cfg
  else
    .panicked "assertion failed: committee_cfg.threshold > 0"

/-! ## Helper lemmas for the rejection-sampling loop -/

/-- Structure lemma for the loop: a produced result satisfies the parity
test and is, unmodified, the output of one of the key-generation attempts. -/
theorem genLoopFrom_eq_some (gen : Nat → KeyGenResult) (i fuel : Nat)
    (r : KeyGenResult) (h : genLoopFrom gen i fuel = some r) :
    parityOk r.2 = true ∧ ∃ j, r = gen j := by
  induction fuel generalizing i with
  | zero => simp [genLoopFrom] at h
  | succ n ih =>
    rw [genLoopFrom] at h
    by_cases hp : parityOk (gen i).2
    · rw [if_pos hp] at h
      cases h
      exact ⟨hp, i, rfl⟩
    · rw [if_neg hp] at h
      exact ih (i + 1) h

/-- Progress lemma for the loop: if attempt `i + k` passes the parity
test, the loop started at `i` terminates within `k + 1` further attempts. -/
theorem genLoopFrom_isSome_of_parity (gen : Nat → KeyGenResult) (i k : Nat)
    (h : parityOk (gen (i + k)).2 = true) :
    (genLoopFrom gen i (k + 1)).isSome = true := by
  induction k generalizing i with
  | zero =>
    rw [genLoopFrom]
    rw [Nat.add_zero] at h
    rw [if_pos h]
    rfl
  | succ n ih =>
    rw [genLoopFrom]
    by_cases hp : parityOk (gen i).2
    · rw [if_pos hp]; rfl
    · rw [if_neg hp]
      have hshift : i + (n + 1) = (i + 1) + n := by omega
      rw [hshift] at h
      exact ih (i + 1) h

/-! ## Claim C1 -/

/-- C1: every committee generation that returns emits a public key
package whose serialized aggregate key has leading byte 2 (the even-y
marker), and the emitted artifacts are built, unmodified, from the full
output of a single key-generation attempt — each failed attempt re-runs
the capability from scratch (the loop body calls `gen` at a fresh attempt
index) rather than flipping the parity of an odd-parity key. -/
theorem committee_generation_parity_invariant (gen : Nat → KeyGenResult)
    (threshold fuel : Nat) (out : CeremonyOutput)
    (h : generate_committee gen threshold fuel = some out) :
    out.pubkeyPackage.verifyingKeySer.headD 0 = 2 ∧
      ∃ i, out = emitArtifacts threshold (gen i) := by
  unfold generate_committee at h
  cases hk : ceremonyKeys gen fuel with
  | none =>
    rw [hk] at h
    exact Option.noConfusion h
  | some r =>
    rw [hk] at h
    simp only [Option.map_some', Option.some.injEq] at h
    obtain ⟨hp, j, hj⟩ := genLoopFrom_eq_some gen 0 fuel r hk
    constructor
    · rw [← h]
      show r.2.verifyingKeySer.headD 0 = 2
      unfold parityOk at hp
      exact eq_of_beq hp
    · exact ⟨j, by rw [← h, hj]⟩

/-- Concrete key-generation stream for witnesses: attempt 0 produces an
odd-parity key, attempt 1 an even-parity one. -/
def genWitness : Nat → KeyGenResult
  | 0 => ([(1, ⟨1, 11⟩)], ⟨[3, 7, 7]⟩)
  | _ => ([(1, ⟨1, 12⟩)], ⟨[2, 5, 5]⟩)

/-- Witness for C1 at the concrete stream `genWitness` with fuel 5. -/
theorem committee_generation_parity_invariant_witness :
    (emitArtifacts 1 (genWitness 1)).pubkeyPackage.verifyingKeySer.headD 0 = 2 ∧
      ∃ i, emitArtifacts 1 (genWitness 1) = emitArtifacts 1 (genWitness i) :=
  committee_generation_parity_invariant genWitness 1 5
    (emitArtifacts 1 (genWitness 1)) rfl

/-! ## Claim C4 -/

/-- Broken key-generation stream whose every attempt yields an odd-parity
(leading byte 3) aggregate key: the situation the spec calls a broken
randomness source. -/
def oddGen : Nat → KeyGenResult :=
  fun _ => ([(1, ⟨1, 9⟩)], ⟨[3, 1, 4]⟩)

/-- On the all-odd stream the loop never produces a result, from any start
index and for any number of observed attempts. -/
theorem genLoopFrom_oddGen (i n : Nat) : genLoopFrom oddGen i n = none := by
  induction n generalizing i with
  | zero => rfl
  | succ m ih =>
    rw [genLoopFrom]
    have hp : ¬ parityOk (oddGen i).2 = true := fun hcon => Bool.noConfusion hcon
    rw [if_neg hp]
    exact ih (i + 1)

/-- C4 counterexample: with a key-generation capability that always
returns an odd-parity key, the ceremony has neither returned nor
hard-failed after 1000 attempts — far beyond the few-hundred-attempt cap
the claim asserts, because the source loop carries no cap at all. -/
theorem parity_loop_uncapped_counterexample :
    generate_committee oddGen 2 1000 = none := by
  unfold generate_committee ceremonyKeys
  rw [genLoopFrom_oddGen]
  rfl

/-- C4 amended: for every member count and threshold with
`0 < threshold ≤ member-count`, ceremony generation terminates provided
some key-generation attempt yields an even-parity aggregate key; the
rejection-sampling loop is uncapped, so absent such an attempt it runs
forever. -/
theorem ceremony_terminates_given_even_parity_attempt
    (gen : Nat → KeyGenResult) (num threshold : Nat)
    (hth : 0 < threshold) (hle : threshold ≤ num)
    (i : Nat) (hp : parityOk (gen i).2 = true) :
    ∃ fuel, (generate_committee gen threshold fuel).isSome = true := by
  refine ⟨i + 1, ?_⟩
  have hsome : (genLoopFrom gen 0 (i + 1)).isSome = true :=
    genLoopFrom_isSome_of_parity gen 0 i (by rw [Nat.zero_add]; exact hp)
  obtain ⟨r, hr⟩ := Option.isSome_iff_exists.mp hsome
  unfold generate_committee ceremonyKeys
  rw [hr]
  rfl

/-- Witness for the amended C4 at the concrete stream `genWitness`, with
member count 1 and threshold 1, whose attempt 1 has even parity. -/
theorem ceremony_terminates_given_even_parity_attempt_witness :
    ∃ fuel, (generate_committee genWitness 1 fuel).isSome = true :=
  ceremony_terminates_given_even_parity_attempt genWitness 1 1
    (by decide) (by decide) 1 (by decide)

/-! ## Claim C6 -/

/-- C6: after the artifacts are loaded, orchestrator startup aborts on a
zero threshold before the coordination service starts, and passes the
check (starting the service with the loaded data) whenever the threshold
is positive. -/
theorem orchestrator_threshold_check (pk : PublicKeyPackage)
    (cfg : CommitteeConfig) :
    (cfg.threshold = 0 →
      start_orchestrator pk cfg =
        .panicked "assertion failed: committee_cfg.threshold > 0") ∧
    (0 < cfg.threshold → start_orchestrator pk cfg = .serving pk cfg) := by
  constructor
  · intro h
    unfold start_orchestrator
    rw [if_neg (by omega)]
  · intro h
    unfold start_orchestrator
    rw [if_pos h]

/-- Witness for C6: a zero-threshold config aborts, a threshold-2 config
serves. -/
theorem orchestrator_threshold_check_witness :
    start_orchestrator ⟨[2]⟩ ⟨0, []⟩ =
      .panicked "assertion failed: committee_cfg.threshold > 0" ∧
    start_orchestrator ⟨[2]⟩ ⟨2, []⟩ = .serving ⟨[2]⟩ ⟨2, []⟩ :=
  ⟨(orchestrator_threshold_check ⟨[2]⟩ ⟨0, []⟩).1 rfl,
    (orchestrator_threshold_check ⟨[2]⟩ ⟨2, []⟩).2 (by decide)⟩

/-! ## Claim C3 -/

/-- C3: whenever the HTTP exchange completes with a response, whatever its
status code, `json_rpc_request` returns `Ok` carrying the raw response
body verbatim — no status is mapped to an error and no body is discarded. -/
theorem json_rpc_request_returns_raw_body (post : HttpPost) (ctx : RpcCtx)
    (method : String) (params : List String) (resp : HttpResponse)
    (h : post (requestUrl ctx) (mkRequest ctx method params) = .ok resp) :
    json_rpc_request post ctx method params = .ok resp.body := by
  unfold json_rpc_request
  rw [h]

/-- Stub exchange completing with HTTP 500 and a diagnostic body. -/
def stub500Post : HttpPost :=
  fun _ _ => .ok { status := 500, body := "diagnostic json body" }

/-- Witness for C3: a stub node answering HTTP 500 still has its body
returned verbatim as `Ok`. -/
theorem json_rpc_request_returns_raw_body_witness :
    json_rpc_request stub500Post ⟨none, none, none, none⟩ "getblockcount" [] =
      .ok "diagnostic json body" :=
  json_rpc_request_returns_raw_body stub500Post ⟨none, none, none, none⟩
    "getblockcount" [] { status := 500, body := "diagnostic json body" } rfl

/-! ## Claim C8 -/

/-- Instrumented exchange that echoes the URL it was posted to back as the
response body, making the posted URL observable in the result. -/
def echoUrlPost : HttpPost :=
  fun url _ => .ok { status := 500, body := url }

/-- C8: the URL posted to (observed by echoing it back as the body) is the
configured endpoint extended with `/wallet/<wallet>` when a wallet is
configured and the bare endpoint otherwise, where the endpoint is the
configured address when set and the hardcoded development node address
`http://127.0.0.1:18331` otherwise. -/
theorem request_url_routing (v au : Option String) (m : String)
    (p : List String) (e w : String) :
    json_rpc_request echoUrlPost ⟨v, some w, some e, au⟩ m p =
      .ok (e ++ "/wallet/" ++ w) ∧
    json_rpc_request echoUrlPost ⟨v, none, some e, au⟩ m p = .ok e ∧
    json_rpc_request echoUrlPost ⟨v, some w, none, au⟩ m p =
      .ok ("http://127.0.0.1:18331" ++ "/wallet/" ++ w) ∧
    json_rpc_request echoUrlPost ⟨v, none, none, au⟩ m p =
      .ok "http://127.0.0.1:18331" :=
  ⟨rfl, rfl, rfl, rfl⟩

/-! ## Claim C7 -/

/-- C7: at every stage boundary the structured-transaction input form and
the hex input form holding the consensus serialization of the same
transaction are observationally equivalent: the normalization maps them to
the same `tx_hex`, and each full stage (fund, sign, broadcast) returns the
same outcome on both, for every exchange, body parser, codec and context. -/
theorem pipeline_stage_input_forms_equivalent (Tx : Type) (post : HttpPost)
    (parseF : String → Option (JsonRpcResponse FundRawTransactionResult))
    (parseS : String → Option (JsonRpcResponse SignRawTransactionResult))
    (parseB : String → Option (JsonRpcResponse String))
    (serialize_hex : Tx → String) (consensus_decode : List Nat → Option Tx)
    (ctx : RpcCtx) (t : Tx) :
    txToHex serialize_hex (.Transaction t) =
      txToHex serialize_hex (.Hex (serialize_hex t)) ∧
    fund_raw_transaction post parseF serialize_hex consensus_decode ctx
        (.Transaction t) =
      fund_raw_transaction post parseF serialize_hex consensus_decode ctx
        (.Hex (serialize_hex t)) ∧
    sign_transaction post parseS serialize_hex consensus_decode ctx
        (.Transaction t) =
      sign_transaction post parseS serialize_hex consensus_decode ctx
        (.Hex (serialize_hex t)) ∧
    send_raw_transaction post parseB serialize_hex ctx (.Transaction t) =
      send_raw_transaction post parseB serialize_hex ctx
        (.Hex (serialize_hex t)) :=
  ⟨rfl, rfl, rfl, rfl⟩

/-! ## Claim C2 -/

/-- Body parser for a node response that is a JSON-RPC error envelope
(such as the body accompanying an HTTP 500 from bitcoind): no result, an
error object with the node-provided code and message. -/
def errorEnvelopeParse {ρ : Type} : String → Option (JsonRpcResponse ρ) :=
  fun _ => some { result := none, error := some { code := -6, message := "Insufficient funds" } }

/-- C2 evaluated at the failing input: a stub node answering HTTP 500 with
a JSON-RPC error envelope makes every stage abort the process through the
`unwrap` on `Response::result()` (the `.panicked` outcome, whose message
is the Debug rendering of the error) instead of returning an `RpcError`
protocol error (the `.err` outcome) as the claim requires. -/
theorem pipeline_rpc_error_panics_on_error_envelope :
    fund_raw_transaction stub500Post errorEnvelopeParse hexEncode
        (fun bytes => some bytes) ⟨none, none, none, none⟩ (.Hex "aa") =
      .panicked
        "called unwrap on an Err value: Rpc(RpcError code -6 message Insufficient funds)" ∧
    sign_transaction stub500Post errorEnvelopeParse hexEncode
        (fun bytes => some bytes) ⟨none, none, none, none⟩ (.Hex "aa") =
      .panicked
        "called unwrap on an Err value: Rpc(RpcError code -6 message Insufficient funds)" ∧
    send_raw_transaction stub500Post errorEnvelopeParse hexEncode
        ⟨none, none, none, none⟩ (.Hex "aa") =
      .panicked
        "called unwrap on an Err value: Rpc(RpcError code -6 message Insufficient funds)" :=
  ⟨rfl, rfl, rfl⟩

/-! ## Artifact-shape lemmas for `emitArtifacts` -/

theorem emitArtifacts_keyFiles_length (threshold : Nat) (r : KeyGenResult) :
    (emitArtifacts threshold r).keyFiles.length = r.1.length := by
  unfold emitArtifacts
  simp [List.enum_length]

theorem emitArtifacts_members_length (threshold : Nat) (r : KeyGenResult) :
    (emitArtifacts threshold r).committeeConfig.members.length = r.1.length := by
  unfold emitArtifacts
  simp [List.enum_length]

theorem emitArtifacts_keyFiles_names (threshold : Nat) (r : KeyGenResult) :
    (emitArtifacts threshold r).keyFiles.map Prod.fst =
      (List.range r.1.length).map fun i => "key-" ++ toString i ++ ".json" := by
  unfold emitArtifacts
  simp only [List.map_map]
  have h1 : (Prod.fst ∘ fun p : Nat × KeyPackage =>
      ("key-" ++ toString p.1 ++ ".json", p.2)) =
      (fun i => "key-" ++ toString i ++ ".json") ∘ Prod.fst := rfl
  rw [h1, ← List.map_map, List.enum_map_fst, List.length_map]

theorem emitArtifacts_members_fst (threshold : Nat) (r : KeyGenResult) :
    (emitArtifacts threshold r).committeeConfig.members.map Prod.fst =
      r.1.map Prod.fst := by
  unfold emitArtifacts
  simp only [List.map_map]
  have h1 : (Prod.fst ∘ fun p : Nat × (Nat × KeyPackage) =>
      (p.2.1, ({ address := "http://127.0.0.1:889" ++ toString p.1 } : Member))) =
      Prod.fst ∘ Prod.snd := rfl
  rw [h1, ← List.map_map, List.enum_map_snd]

theorem emitArtifacts_members_addresses (threshold : Nat) (r : KeyGenResult) :
    (emitArtifacts threshold r).committeeConfig.members.map (fun m => m.2.address) =
      (List.range r.1.length).map fun i => "http://127.0.0.1:889" ++ toString i := by
  unfold emitArtifacts
  simp only [List.map_map]
  have h1 : ((fun m : Nat × Member => m.2.address) ∘ fun p : Nat × (Nat × KeyPackage) =>
      (p.2.1, ({ address := "http://127.0.0.1:889" ++ toString p.1 } : Member))) =
      (fun i => "http://127.0.0.1:889" ++ toString i) ∘ Prod.fst := rfl
  rw [h1, ← List.map_map, List.enum_map_fst]

/-! ## Claim C5 -/

/-- C5: for every member count and threshold with
`0 < threshold ≤ member-count`, a completed ceremony (one where the parity
loop returned) emits exactly one secret key package file per member named
`key-<ordinal>.json` for ordinals `0..member-count-1`, one public key
package and one committee config (both structurally unique in
`CeremonyOutput`), whose members mapping has exactly `member-count`
distinct member-id entries and whose threshold equals the input threshold.
The key-generation capability is modelled from the spec: each attempt
yields one secret share per member, keyed by distinct member identifiers. -/
theorem ceremony_artifact_counts (gen : Nat → KeyGenResult)
    (num threshold fuel : Nat) (out : CeremonyOutput)
    (hgen : ∀ i, (gen i).1.length = num ∧ ((gen i).1.map Prod.fst).Nodup)
    (hth : 0 < threshold) (hle : threshold ≤ num)
    (hout : generate_committee gen threshold fuel = some out) :
    out.keyFiles.length = num ∧
    out.keyFiles.map Prod.fst =
      ((List.range num).map fun i => "key-" ++ toString i ++ ".json") ∧
    out.committeeConfig.members.length = num ∧
    (out.committeeConfig.members.map Prod.fst).Nodup ∧
    out.committeeConfig.threshold = threshold := by
  unfold generate_committee at hout
  cases hk : ceremonyKeys gen fuel with
  | none =>
    rw [hk] at hout
    exact Option.noConfusion hout
  | some r =>
    rw [hk] at hout
    simp only [Option.map_some', Option.some.injEq] at hout
    obtain ⟨hp, j, hj⟩ := genLoopFrom_eq_some gen 0 fuel r hk
    have hlen : r.1.length = num := by rw [hj]; exact (hgen j).1
    have hnodup : (r.1.map Prod.fst).Nodup := by rw [hj]; exact (hgen j).2
    refine ⟨?_, ?_, ?_, ?_, ?_⟩
    · rw [← hout, emitArtifacts_keyFiles_length, hlen]
    · rw [← hout, emitArtifacts_keyFiles_names, hlen]
    · rw [← hout, emitArtifacts_members_length, hlen]
    · rw [← hout, emitArtifacts_members_fst]
      exact hnodup
    · rw [← hout]
      rfl

/-- Concrete two-member key-generation stream (even parity on every
attempt) for the C5 witness. -/
def twoMemberGen : Nat → KeyGenResult :=
  fun _ => ([(5, ⟨5, 1⟩), (9, ⟨9, 2⟩)], ⟨[2, 8]⟩)

/-- Witness for C5 at `twoMemberGen` with member count 2, threshold 2. -/
theorem ceremony_artifact_counts_witness :
    (emitArtifacts 2 (twoMemberGen 0)).keyFiles.length = 2 ∧
    (emitArtifacts 2 (twoMemberGen 0)).keyFiles.map Prod.fst =
      ((List.range 2).map fun i => "key-" ++ toString i ++ ".json") ∧
    (emitArtifacts 2 (twoMemberGen 0)).committeeConfig.members.length = 2 ∧
    ((emitArtifacts 2 (twoMemberGen 0)).committeeConfig.members.map Prod.fst).Nodup ∧
    (emitArtifacts 2 (twoMemberGen 0)).committeeConfig.threshold = 2 :=
  ceremony_artifact_counts twoMemberGen 2 2 1 (emitArtifacts 2 (twoMemberGen 0))
    (fun _ => ⟨rfl, (by decide :
      (([(5, (⟨5, 1⟩ : KeyPackage)), (9, ⟨9, 2⟩)]).map Prod.fst).Nodup)⟩)
    (by decide) (by decide) rfl

/-! ## Claim C9 -/

/-- C9: the member at ordinal `i` of the emitted committee config is
assigned the placeholder address obtained by appending the decimal
ordinal to the base URL `http://127.0.0.1:889` (for any emitted result),
and concretely `generate(num=3, threshold=2)` emits a committee config
with threshold 2 and exactly three member entries whose addresses are
`http://127.0.0.1:8890`, `http://127.0.0.1:8891`, `http://127.0.0.1:8892`. -/
theorem generate_three_two_committee_config :
    (∀ (threshold : Nat) (r : KeyGenResult),
      (emitArtifacts threshold r).committeeConfig.members.map (fun m => m.2.address) =
        (List.range r.1.length).map fun i => "http://127.0.0.1:889" ++ toString i) ∧
    ∀ (gen : Nat → KeyGenResult) (fuel : Nat) (out : CeremonyOutput),
      (∀ i, (gen i).1.length = 3) →
      generate_committee gen 2 fuel = some out →
      out.committeeConfig.threshold = 2 ∧
      out.committeeConfig.members.length = 3 ∧
      out.committeeConfig.members.map (fun m => m.2.address) =
        ["http://127.0.0.1:8890", "http://127.0.0.1:8891", "http://127.0.0.1:8892"] := by
  refine ⟨emitArtifacts_members_addresses, ?_⟩
  intro gen fuel out hlen hout
  unfold generate_committee at hout
  cases hk : ceremonyKeys gen fuel with
  | none =>
    rw [hk] at hout
    exact Option.noConfusion hout
  | some r =>
    rw [hk] at hout
    simp only [Option.map_some', Option.some.injEq] at hout
    obtain ⟨hp, j, hj⟩ := genLoopFrom_eq_some gen 0 fuel r hk
    have hr3 : r.1.length = 3 := by rw [hj]; exact hlen j
    refine ⟨by rw [← hout]; rfl, ?_, ?_⟩
    · rw [← hout, emitArtifacts_members_length, hr3]
    · rw [← hout, emitArtifacts_members_addresses, hr3]
      rfl

/-- Concrete three-member key-generation stream (even parity on every
attempt) for the C9 witness. -/
def threeMemberGen : Nat → KeyGenResult :=
  fun _ => ([(3, ⟨3, 1⟩), (7, ⟨7, 2⟩), (8, ⟨8, 3⟩)], ⟨[2, 9]⟩)

/-- Witness for C9 at `threeMemberGen` with `generate(num=3, threshold=2)`. -/
theorem generate_three_two_committee_config_witness :
    (emitArtifacts 2 (threeMemberGen 0)).committeeConfig.threshold = 2 ∧
    (emitArtifacts 2 (threeMemberGen 0)).committeeConfig.members.length = 3 ∧
    (emitArtifacts 2 (threeMemberGen 0)).committeeConfig.members.map (fun m => m.2.address) =
      ["http://127.0.0.1:8890", "http://127.0.0.1:8891", "http://127.0.0.1:8892"] :=
  generate_three_two_committee_config.2 threeMemberGen 1
    (emitArtifacts 2 (threeMemberGen 0)) (fun _ => rfl) rfl

/-! ## Claim C10 -/

/-- Inversion of `Response::result()`: a successful extraction means the
envelope carried no error and exactly that typed result. -/
theorem responseResult_ok {ρ : Type} (env : JsonRpcResponse ρ) (v : ρ)
    (h : responseResult env = .ok v) :
    env.error = none ∧ env.result = some v := by
  unfold responseResult at h
  cases he : env.error with
  | some e =>
    rw [he] at h
    exact Except.noConfusion h
  | none =>
    rw [he] at h
    cases hres : env.result with
    | none =>
      rw [hres] at h
      exact Except.noConfusion h
    | some v0 =>
      rw [hres] at h
      injection h with h
      subst h
      exact ⟨rfl, rfl⟩

/-- C10: whenever fund or sign returns successfully, its two components
are mutually consistent: the returned hex string is the hex encoding of
exactly the transaction bytes carried in the node result, consensus
decoding those bytes yields exactly the returned structured transaction,
and (the bytes being genuine bytes, below 256) decoding the returned hex
reproduces the returned transaction. -/
theorem fund_sign_result_components_consistent :
    (∀ (Tx : Type) (post : HttpPost)
       (parseEnv : String → Option (JsonRpcResponse FundRawTransactionResult))
       (serialize_hex : Tx → String) (consensus_decode : List Nat → Option Tx)
       (ctx : RpcCtx) (tx : TransactionOrHex Tx) (h : String) (t : Tx),
      (∀ s env, parseEnv s = some env →
        ∀ p, env.result = some p → ∀ b ∈ p.hex, b < 256) →
      fund_raw_transaction post parseEnv serialize_hex consensus_decode ctx tx =
        .ok (h, t) →
      ∃ bytes, h = hexEncode bytes ∧ consensus_decode bytes = some t ∧
        hexDecode h = some bytes ∧
        (hexDecode h).bind consensus_decode = some t) ∧
    ∀ (Tx : Type) (post : HttpPost)
      (parseEnv : String → Option (JsonRpcResponse SignRawTransactionResult))
      (serialize_hex : Tx → String) (consensus_decode : List Nat → Option Tx)
      (ctx : RpcCtx) (tx : TransactionOrHex Tx) (h : String) (t : Tx),
      (∀ s env, parseEnv s = some env →
        ∀ p, env.result = some p → ∀ b ∈ p.hex, b < 256) →
      sign_transaction post parseEnv serialize_hex consensus_decode ctx tx =
        .ok (h, t) →
      ∃ bytes, h = hexEncode bytes ∧ consensus_decode bytes = some t ∧
        hexDecode h = some bytes ∧
        (hexDecode h).bind consensus_decode = some t := by
  constructor
  · intro Tx post parseEnv serialize_hex consensus_decode ctx tx h t hbytes hok
    unfold fund_raw_transaction at hok
    split at hok
    next e hj => exact Outcome.noConfusion hok
    next response hj =>
      split at hok
      next hp => exact Outcome.noConfusion hok
      next env hp =>
        split at hok
        next f hr => exact Outcome.noConfusion hok
        next parsed hr =>
          split at hok
          next hd => exact Outcome.noConfusion hok
          next t0 hd =>
            injection hok with hpair
            have hh : hexEncode parsed.hex = h := congrArg Prod.fst hpair
            have ht : t0 = t := congrArg Prod.snd hpair
            have hres : env.result = some parsed := (responseResult_ok env parsed hr).2
            have hb : ∀ b ∈ parsed.hex, b < 256 := hbytes response env hp parsed hres
            refine ⟨parsed.hex, hh.symm, by rw [hd, ht], ?_, ?_⟩
            · rw [← hh]
              exact hexDecode_hexEncode parsed.hex hb
            · rw [← hh, hexDecode_hexEncode parsed.hex hb]
              show consensus_decode parsed.hex = some t
              rw [hd, ht]
  · intro Tx post parseEnv serialize_hex consensus_decode ctx tx h t hbytes hok
    unfold sign_transaction at hok
    split at hok
    next e hj => exact Outcome.noConfusion hok
    next response hj =>
      split at hok
      next hp => exact Outcome.noConfusion hok
      next env hp =>
        split at hok
        next f hr => exact Outcome.noConfusion hok
        next parsed hr =>
          split at hok
          next hd => exact Outcome.noConfusion hok
          next t0 hd =>
            injection hok with hpair
            have hh : hexEncode parsed.hex = h := congrArg Prod.fst hpair
            have ht : t0 = t := congrArg Prod.snd hpair
            have hres : env.result = some parsed := (responseResult_ok env parsed hr).2
            have hb : ∀ b ∈ parsed.hex, b < 256 := hbytes response env hp parsed hres
            refine ⟨parsed.hex, hh.symm, by rw [hd, ht], ?_, ?_⟩
            · rw [← hh]
              exact hexDecode_hexEncode parsed.hex hb
            · rw [← hh, hexDecode_hexEncode parsed.hex hb]
              show consensus_decode parsed.hex = some t
              rw [hd, ht]

/-- Stub exchange completing with HTTP 200 and a result body. -/
def okPost : HttpPost :=
  fun _ _ => .ok { status := 200, body := "result body" }

/-- Body parser producing a successful fund result carrying the concrete
transaction bytes `[1, 255]`. -/
def okFundParse : String → Option (JsonRpcResponse FundRawTransactionResult) :=
  fun _ => some { result := some ⟨[1, 255]⟩, error := none }

/-- Witness for C10: a concrete successful fund call, with the identity
consensus codec on byte lists, yields mutually consistent components. -/
theorem fund_sign_result_components_consistent_witness :
    ∃ bytes, hexEncode [1, 255] = hexEncode bytes ∧
      some bytes = some [1, 255] ∧
      hexDecode (hexEncode [1, 255]) = some bytes ∧
      (hexDecode (hexEncode [1, 255])).bind some = some [1, 255] :=
  fund_sign_result_components_consistent.1 (List Nat) okPost okFundParse
    hexEncode some ⟨none, none, none, none⟩ (.Hex "aa") (hexEncode [1, 255]) [1, 255]
    (by
      intro s env he p hp b hb
      have h1 : ({ result := some ⟨[1, 255]⟩, error := none } :
          JsonRpcResponse FundRawTransactionResult) = env := Option.some_inj.mp he
      rw [← h1] at hp
      have h2 : (⟨[1, 255]⟩ : FundRawTransactionResult) = p := Option.some_inj.mp hp
      rw [← h2] at hb
      simp only [List.mem_cons, List.not_mem_nil, or_false] at hb
      rcases hb with rfl | rfl <;> omega)
    rfl
